import Mathlib

/-!
Verification of the temporal-animation core of `anim_map.py` (gpd-plot).

The embedding below translates, from the source:
  * the day-granularity date model used by the script (pandas timestamps
    floored to days; calendar months as in the proleptic Gregorian calendar,
    which is what `pd.offsets.MonthEnd` / `.dt.to_period('M')` compute);
  * the frame-timeline construction (`pd.date_range(start, end, freq='D')`
    over the combined foreground/background date span, lines 126-132);
  * the per-frame foreground accumulator `update` (lines 266-279), where
    `gdf.loc[a:b]` on the day-floored datetime index is label slicing and is
    inclusive of BOTH endpoints;
  * the foreground opacity helper `calculate_opacity` (lines 190-206);
  * the background layer computation inside `update` (lines 225-263):
    month fade-in, age decay, month fade-out and the final alpha product.
Vectorized numpy/pandas mask operations are translated as per-record maps and
filters over lists, which preserves order and multiplicity. Float arithmetic
on opacities is modelled exactly: the quantities built from `+ - * /` and
clipping are rationals (ℚ), and the one exponential (`np.exp`) lives in ℝ.
-/

namespace GpdPlot

/-- A calendar date at day granularity, as a pandas `Timestamp` floored to
days (`.dt.floor('D')`, line 96). -/
structure Date where
  year : Nat
  month : Nat
  day : Nat
deriving DecidableEq, Repr

/-- Gregorian leap-year rule, as used by pandas calendar arithmetic. -/
def isLeapYear (y : Nat) : Bool :=
  (y % 4 == 0 && y % 100 != 0) || y % 400 == 0

/-- Number of days in a calendar month; `month_start + pd.offsets.MonthEnd(1)`
(line 228) lands on day `daysInMonth y m` of the same month. -/
def daysInMonth (y m : Nat) : Nat :=
  if m = 2 then (if isLeapYear y then 29 else 28)
  else if m = 4 ∨ m = 6 ∨ m = 9 ∨ m = 11 then 30 else 31

/-- Absolute month number; `.dt.to_period('M')` values compare and subtract
exactly as these do. -/
def monthIdx (d : Date) : Nat := 12 * d.year + (d.month - 1)

/-- Days in years `1..y-1`: proleptic-Gregorian ordinal day arithmetic. -/
def daysBeforeYear (y : Nat) : Nat :=
  365 * (y - 1) + ((y - 1) / 4 - (y - 1) / 100) + (y - 1) / 400

/-- Days in months `1..m-1` of year `y`. -/
def daysBeforeMonth (y m : Nat) : Nat :=
  ((List.range (m - 1)).map (fun k => daysInMonth y (k + 1))).sum

/-- Ordinal day number of a date; timestamp differences in days
(`(t1 - t2).astype('timedelta64[D]')`, `.dt.total_seconds()/86400`) equal
differences of these ordinals because every timestamp involved is floored
to midnight. -/
def toOrdinal (d : Date) : Nat :=
  daysBeforeYear d.year + daysBeforeMonth d.year d.month + (d.day - 1)

/-! ## Foreground data model and the per-frame accumulator (lines 216-296) -/

/-- One foreground row of `gdf`: projected position (`geometry.x/y`),
day-floored timestamp (the `date_hour` index) as an ordinal day number, and
the year used for the color scale. -/
structure PtRec where
  pos : ℚ × ℚ
  ts : ℤ
  year : ℤ
deriving DecidableEq, Repr

/-- `gdf.loc[:b]` on the day-floored datetime index: all rows with index
`≤ b`, in stored order. -/
def locLe (recs : List PtRec) (b : ℤ) : List PtRec :=
  recs.filter (fun r => decide (r.ts ≤ b))

/-- `gdf.loc[a:b]`: pandas label slicing on the datetime index, inclusive of
BOTH endpoints. -/
def locBetween (recs : List PtRec) (a b : ℤ) : List PtRec :=
  recs.filter (fun r => decide (a ≤ r.ts) && decide (r.ts ≤ b))

/-- The foreground part of `update(frame)` (lines 266-279) acting on the
accumulated state `all_points`/`all_dates`/`all_years` (zipped here into one
list, since the three are extended in lockstep). Frame `0` replaces the state
with `gdf.loc[:current_time]` when that slice is non-empty; frame `i > 0`
extends the state with `gdf.loc[date_range[i-1]:current_time]` when that
slice is non-empty. -/
def update (recs : List PtRec) (dateRange : List ℤ) (frame : Nat)
    (st : List PtRec) : List PtRec :=
  let currentTime := dateRange.getD frame 0
  if frame = 0 then
    let data := locLe recs currentTime
    if data.isEmpty then st else data
  else
    let newData := locBetween recs (dateRange.getD (frame - 1) 0) currentTime
    if newData.isEmpty then st else st ++ newData

/-- Streaming the animation: state after processing frames `0..n-1` in order
(the `FuncAnimation` loop, line 302), starting from the empty lists. -/
def runUpTo (recs : List PtRec) (dateRange : List ℤ) (n : Nat) : List PtRec :=
  (List.range n).foldl (fun st f => update recs dateRange f st) []

/-! ## Timeline builder (lines 126-132) -/

/-- `s, s+1, ..., s+n-1`: the consecutive daily dates of `pd.date_range`. -/
def consRange (s : ℤ) (n : Nat) : List ℤ :=
  (List.range n).map (fun (i : ℕ) => s + (i : ℤ))

/-- `pd.date_range(start, end, freq='D')` over midnight-aligned endpoints. -/
def date_range (s e : ℤ) : List ℤ :=
  if s ≤ e then consRange s ((e - s).toNat + 1) else []

/-- Minimum of a date column (`.min()`); only used on non-empty inputs. -/
def listMin : List ℤ → ℤ
  | [] => 0
  | x :: xs => xs.foldl min x

/-- Maximum of a date column (`.max()`). -/
def listMax : List ℤ → ℤ
  | [] => 0
  | x :: xs => xs.foldl max x

/-- Start of the frame range (line 127-131): the foreground minimum when no
background data is present, else the minimum over both datasets. -/
def combinedStart (fg bg : List ℤ) : ℤ :=
  if bg.isEmpty then listMin fg else min (listMin fg) (listMin bg)

/-- End of the frame range (line 127-132). -/
def combinedEnd (fg bg : List ℤ) : ℤ :=
  if bg.isEmpty then listMax fg else max (listMax fg) (listMax bg)

/-- The frame timeline `date_range` of the script, from the day-floored
foreground dates and the month-floored background dates. -/
def timeline (fg bg : List ℤ) : List ℤ :=
  date_range (combinedStart fg bg) (combinedEnd fg bg)

/-! ## Concrete two-record dataset from the spec's worked example -/

/-- Foreground record timestamped 2015-06-01. -/
def exRec1 : PtRec := ⟨(0, 0), (toOrdinal ⟨2015, 6, 1⟩ : ℤ), 2015⟩

/-- Foreground record timestamped 2015-06-03. -/
def exRec2 : PtRec := ⟨(1, 1), (toOrdinal ⟨2015, 6, 3⟩ : ℤ), 2015⟩

/-- The example dataset, in load order. -/
def exRecs : List PtRec := [exRec1, exRec2]

/-- Its timeline: 2015-06-01, 2015-06-02, 2015-06-03 (no background data). -/
def exDr : List ℤ := timeline [exRec1.ts, exRec2.ts] []

example : exDr.length = 3 := by decide
example : (runUpTo exRecs exDr 1).length = 1 := by decide
example : (runUpTo exRecs exDr 2).length = 2 := by decide
example : (runUpTo exRecs exDr 3).length = 3 := by decide

/-! ## Foreground opacity helper (lines 190-206) -/

/-- `MIN_OPACITY = 0.2` (line 69). -/
noncomputable def MIN_OPACITY : ℝ := 0.2

/-- `DECAY_YEARS = 5` (line 68). -/
noncomputable def DECAY_YEARS : ℝ := 5

/-- `calculate_opacity` (lines 190-206) applied to one age value; the numpy
version maps this over the whole `all_dates` array. The captured constant
`DECAY_YEARS` is exposed as the parameter `decayYears` so the decay half-life
can be quantified over; the script instantiates it with `DECAY_YEARS`. -/
noncomputable def calculate_opacity (decayYears : ℝ) (ageDays : ℝ) : ℝ :=
  max (Real.exp (-ageDays / (decayYears * 365))) MIN_OPACITY

/-! ## Background layer (lines 225-263) -/

/-- One background row of `bg_gdf`: projected position and the
month-truncated `imageDate` (line 107 floors it to the first of its month). -/
structure BgRec where
  pos : ℚ × ℚ
  imageDate : Date
deriving DecidableEq, Repr

/-- `month_progress` (lines 227-229): `current_time - month_start` over
`next_month - month_start`, where `month_start = current_time.replace(day=1)`
and `next_month = month_start + pd.offsets.MonthEnd(1)` is the LAST day of the
current month — so the denominator is `daysInMonth - 1` days. -/
def month_progress (cur : Date) : ℚ :=
  ((cur.day : ℚ) - 1) / ((daysInMonth cur.year cur.month : ℚ) - 1)

/-- `mask_visible` (line 237): background rows whose image month is `≤` the
current frame's month, in stored order. -/
def mask_visible (bgs : List BgRec) (cur : Date) : List BgRec :=
  bgs.filter (fun b => decide (monthIdx b.imageDate ≤ monthIdx cur))

/-- `fade_in_alphas` (lines 242-244) at one visible row: `1`, overwritten by
`month_progress` on rows of the current month. -/
def fade_in_alpha (cur : Date) (b : BgRec) : ℚ :=
  if monthIdx b.imageDate = monthIdx cur then month_progress cur else 1

/-- `age_days` (line 247): `(current_time - imageDate).total_seconds()/86400`;
both timestamps are at midnight, so this is an ordinal-day difference. -/
def age_days (cur : Date) (b : BgRec) : ℤ :=
  (toOrdinal cur : ℤ) - (toOrdinal b.imageDate : ℤ)

/-- `decay_alphas` (lines 248-250) at one visible row. -/
noncomputable def decay_alpha (decayYears minOpacity : ℝ) (cur : Date)
    (b : BgRec) : ℝ :=
  max (Real.exp (-(age_days cur b : ℝ) / (decayYears * 365))) minOpacity

/-- `months_old` (line 253): elapsed seconds over `30*24*60*60`. -/
def months_old (cur : Date) (b : BgRec) : ℚ :=
  ((age_days cur b : ℚ) * (24 * 60 * 60)) / (30 * (24 * 60 * 60))

/-- `MIN_FADE = 0.1` (line 254). -/
def MIN_FADE : ℚ := 1 / 10

/-- `fade_out_alphas` (line 255) as a function of the elapsed-months value:
`(1 - months_old/6).clip(MIN_FADE, 1)`; pandas `clip(lo, hi)` is
`min (max x lo) hi`. -/
def fade_out_of_months (m : ℚ) : ℚ :=
  min (max (1 - m / 6) MIN_FADE) 1

/-- `fade_out_alphas` at one visible row. -/
def fade_out_alpha (cur : Date) (b : BgRec) : ℚ :=
  fade_out_of_months (months_old cur b)

/-- `final_alphas = fade_in_alphas * fade_out_alphas * 0.5` (line 257). -/
def final_alpha (cur : Date) (b : BgRec) : ℚ :=
  fade_in_alpha cur b * fade_out_alpha cur b * (1 / 2)

/-- What the background branch of `update` hands to the scatter artist
(lines 259-263): offsets, color years, and the alpha arrays it computes.
`decay_alphas` (lines 246-250) is computed but, per line 257, not part of
`final_alphas`; it is carried here so that fact is visible in the model. -/
structure BgFrameOut where
  offsets : List (ℚ × ℚ)
  colorYears : List Nat
  decayAlphas : List ℝ
  finalAlphas : List ℚ

/-- The background part of `update(frame)` (lines 225-263), per frame date.
It is stateless across frames: every field is recomputed from `cur`. -/
noncomputable def bgUpdate (decayYears minOpacity : ℝ) (bgs : List BgRec)
    (cur : Date) : BgFrameOut :=
  let visible := mask_visible bgs cur
  { offsets := visible.map (fun b => b.pos)
    colorYears := visible.map (fun b => b.imageDate.year)
    decayAlphas := visible.map (decay_alpha decayYears minOpacity cur)
    finalAlphas := visible.map (final_alpha cur) }

example : month_progress ⟨2019, 7, 15⟩ = 14 / 30 := by
  norm_num [month_progress, daysInMonth]
example : month_progress ⟨2019, 7, 1⟩ = 0 := by
  norm_num [month_progress, daysInMonth]
example : month_progress ⟨2019, 7, 31⟩ = 1 := by
  norm_num [month_progress, daysInMonth]

/-- A background record with image month 2019-07 (month-truncated date). -/
def exBgJul : BgRec := ⟨(0, 0), ⟨2019, 7, 1⟩⟩

/-- A background record with image month 2020-01, used to test exclusion. -/
def exBgLater : BgRec := ⟨(2, 2), ⟨2020, 1, 1⟩⟩

/-! ## Helper lemmas about the accumulator -/

lemma update_pos (recs : List PtRec) (dr : List ℤ) (st : List PtRec)
    (i : Nat) (hi : i ≠ 0) :
    update recs dr i st
      = st ++ locBetween recs (dr.getD (i - 1) 0) (dr.getD i 0) := by
  simp only [update, if_neg hi]
  rcases hw : locBetween recs (dr.getD (i - 1) 0) (dr.getD i 0) with _ | ⟨a, l⟩ <;>
    simp [hw]

lemma update_zero_of_empty (recs : List PtRec) (dr : List ℤ) :
    update recs dr 0 [] = locLe recs (dr.getD 0 0) := by
  simp only [update, if_pos rfl]
  rcases hw : locLe recs (dr.getD 0 0) with _ | ⟨a, l⟩ <;> simp [hw]

lemma runUpTo_succ (recs : List PtRec) (dr : List ℤ) (n : Nat) :
    runUpTo recs dr (n + 1) = update recs dr n (runUpTo recs dr n) := by
  simp [runUpTo, List.range_succ]

/-! ## C1, C3, C5 -/

/-- C1 counterexample: on the two-record example dataset the accumulated set
sizes after frames 0, 1, 2 are 1, 2, 3 — not the claimed 1, 1, 2 — because
pandas label slicing `gdf.loc[date_range[i-1]:current_time]` includes BOTH
endpoints, so the record dated 2015-06-01 is appended again on frame 1. -/
theorem accumulator_window_cex :
    ((runUpTo exRecs exDr 1).length,
     (runUpTo exRecs exDr 2).length,
     (runUpTo exRecs exDr 3).length) = (1, 2, 3)
    ∧ ((1, 2, 3) : Nat × Nat × Nat) ≠ (1, 1, 2) := by decide

/-- C1 (amended): for `i > 0` the per-frame update appends exactly the
records whose day-floored timestamp lies in the CLOSED window
`[date_range[i-1], date_range[i]]`; for `i = 0` (from the empty state) the
state becomes exactly the records with timestamp `≤` the first frame date;
on the example dataset the accumulated sizes after frames 0, 1, 2 are
1, 2, 3. -/
theorem accumulator_window_closed :
    (∀ (recs : List PtRec) (dr : List ℤ) (st : List PtRec) (i : Nat), 0 < i →
        update recs dr i st
          = st ++ locBetween recs (dr.getD (i - 1) 0) (dr.getD i 0))
    ∧ (∀ (recs : List PtRec) (dr : List ℤ),
        update recs dr 0 [] = locLe recs (dr.getD 0 0))
    ∧ (runUpTo exRecs exDr 1).length = 1
    ∧ (runUpTo exRecs exDr 2).length = 2
    ∧ (runUpTo exRecs exDr 3).length = 3 := by
  refine ⟨fun recs dr st i hi => ?_, fun recs dr => ?_, by decide, by decide, by decide⟩
  · exact update_pos recs dr st i (Nat.pos_iff_ne_zero.mp hi)
  · exact update_zero_of_empty recs dr

/-- Witness for the amended C1 at frame 1 of the example dataset. -/
theorem accumulator_window_closed_w :
    0 < 1
    ∧ update exRecs exDr 1 []
        = [] ++ locBetween exRecs (exDr.getD 0 0) (exDr.getD 1 0) :=
  ⟨by decide, accumulator_window_closed.1 exRecs exDr [] 1 (by decide)⟩

/-- C3 counterexample: processing frame 0 then calling the update twice with
frame index 1 gives an accumulated size of 3, while calling it once gives 2 —
the second call re-appends the boundary record, so the update is not
idempotent. -/
theorem update_idempotence_cex :
    (update exRecs exDr 1 (runUpTo exRecs exDr 1)).length = 2
    ∧ (update exRecs exDr 1 (update exRecs exDr 1 (runUpTo exRecs exDr 1))).length = 3
    ∧ (3 : Nat) ≠ 2 := by decide

/-- C3 (amended): for `i > 0` a repeated call with the same frame index
appends the records of the window `[date_range[i-1], date_range[i]]` a second
time, growing the state by the window's record count (so it is idempotent
only when that window holds no records); a repeated call with frame index 0
is idempotent; on the example dataset repeating frame 1 yields size 3. -/
theorem update_reapply_growth :
    (∀ (recs : List PtRec) (dr : List ℤ) (st : List PtRec) (i : Nat), 0 < i →
        (update recs dr i (update recs dr i st)).length
          = (update recs dr i st).length
            + (locBetween recs (dr.getD (i - 1) 0) (dr.getD i 0)).length)
    ∧ (∀ (recs : List PtRec) (dr : List ℤ) (st : List PtRec),
        update recs dr 0 (update recs dr 0 st) = update recs dr 0 st)
    ∧ (update exRecs exDr 1 (update exRecs exDr 1 (runUpTo exRecs exDr 1))).length = 3 := by
  refine ⟨fun recs dr st i hi => ?_, fun recs dr st => ?_, by decide⟩
  · have hi0 := Nat.pos_iff_ne_zero.mp hi
    rw [update_pos recs dr _ i hi0, update_pos recs dr st i hi0,
      List.length_append]
  · simp only [update, if_pos rfl]
    rcases hw : locLe recs (dr.getD 0 0) with _ | ⟨a, l⟩ <;> simp [hw]

/-- Witness for the amended C3 at frame 1 of the example dataset. -/
theorem update_reapply_growth_w :
    0 < 1
    ∧ (update exRecs exDr 1 (update exRecs exDr 1 [])).length
        = (update exRecs exDr 1 []).length
          + (locBetween exRecs (exDr.getD 0 0) (exDr.getD 1 0)).length :=
  ⟨by decide, update_reapply_growth.1 exRecs exDr [] 1 (by decide)⟩

/-- C5: the `--final-frame` path (line 298-299) calls `update` once with the
last frame index starting from the empty accumulated state, which yields only
the records of the final closed window — position list `[(1, 1)]` — whereas
streaming frames 0..N-1 yields every accumulated record — position list
`[(0, 0), (0, 0), (1, 1)]` — so the two modes do not agree on the terminal
frame's foreground payload. -/
theorem final_frame_mode_diverges :
    (update exRecs exDr (exDr.length - 1) []).map (fun r => r.pos)
        = [((1 : ℚ), (1 : ℚ))]
    ∧ (runUpTo exRecs exDr exDr.length).map (fun r => r.pos)
        = [((0 : ℚ), (0 : ℚ)), ((0 : ℚ), (0 : ℚ)), ((1 : ℚ), (1 : ℚ))]
    ∧ (update exRecs exDr (exDr.length - 1) []).length
        ≠ (runUpTo exRecs exDr exDr.length).length := by decide

/-! ## C4: month fade-in -/

lemma daysInMonth_ge (y m : Nat) : 28 ≤ daysInMonth y m := by
  unfold daysInMonth
  split <;> split <;> omega

/-- C4 counterexample: the fade-in factor of an image-month 2019-07 record at
frame date 2019-07-15 is `14/30`, not the claimed `14/31`: the denominator of
`month_progress` is `month_start + MonthEnd(1) - month_start`, i.e. the
month's length MINUS one day. -/
theorem fade_in_factor_cex :
    fade_in_alpha ⟨2019, 7, 15⟩ exBgJul = 14 / 30
    ∧ (14 / 30 : ℚ) ≠ 14 / 31 := by
  constructor
  · norm_num [fade_in_alpha, exBgJul, monthIdx, month_progress, daysInMonth]
  · norm_num

/-- C4 (amended): for a background record of the current frame's month the
fade-in factor is `(current_date - month_start) / (month_length - 1 day)`; it
is `0` on the month's first day and exactly `1` on the month's last day, and
records from strictly earlier months get factor exactly `1`; in particular
the 2019-07 record at frame date 2019-07-15 gets factor `14/30`. -/
theorem fade_in_linear_ramp :
    (∀ (cur : Date) (b : BgRec), monthIdx b.imageDate = monthIdx cur →
        fade_in_alpha cur b
          = ((cur.day : ℚ) - 1) / ((daysInMonth cur.year cur.month : ℚ) - 1))
    ∧ (∀ cur : Date, cur.day = 1 → month_progress cur = 0)
    ∧ (∀ cur : Date, cur.day = daysInMonth cur.year cur.month →
        month_progress cur = 1)
    ∧ (∀ (cur : Date) (b : BgRec), monthIdx b.imageDate < monthIdx cur →
        fade_in_alpha cur b = 1)
    ∧ fade_in_alpha ⟨2019, 7, 15⟩ exBgJul = 14 / 30 := by
  refine ⟨fun cur b h => ?_, fun cur h => ?_, fun cur h => ?_, fun cur b h => ?_, ?_⟩
  · unfold fade_in_alpha
    rw [if_pos h]
    rfl
  · unfold month_progress
    rw [h]
    norm_num
  · have h28 := daysInMonth_ge cur.year cur.month
    have hne : ((daysInMonth cur.year cur.month : ℚ) - 1) ≠ 0 := by
      have h28q : (28 : ℚ) ≤ (daysInMonth cur.year cur.month : ℚ) := by
        exact_mod_cast h28
      linarith
    unfold month_progress
    rw [h]
    exact div_self hne
  · unfold fade_in_alpha
    rw [if_neg (Nat.ne_of_lt h)]
  · norm_num [fade_in_alpha, exBgJul, monthIdx, month_progress, daysInMonth]

/-- Witness for the amended C4 on the first day of 2019-07. -/
theorem fade_in_linear_ramp_w :
    (Date.mk 2019 7 1).day = 1 ∧ month_progress ⟨2019, 7, 1⟩ = 0 :=
  ⟨rfl, fade_in_linear_ramp.2.1 ⟨2019, 7, 1⟩ rfl⟩

/-! ## C9: month fade-out -/

/-- C9: the fade-out factor `(1 - months_old/6).clip(0.1, 1)` is `1` at zero
elapsed months, exactly the floor `0.1` at six or more elapsed months,
monotonically non-increasing, always inside `[0.1, 1]`, and is exactly what
the per-record fade-out alpha computes from the elapsed-months value. -/
theorem fade_out_clip :
    MIN_FADE = 1 / 10
    ∧ fade_out_of_months 0 = 1
    ∧ (∀ m : ℚ, 6 ≤ m → fade_out_of_months m = MIN_FADE)
    ∧ (∀ m1 m2 : ℚ, m1 ≤ m2 → fade_out_of_months m2 ≤ fade_out_of_months m1)
    ∧ (∀ m : ℚ, MIN_FADE ≤ fade_out_of_months m ∧ fade_out_of_months m ≤ 1)
    ∧ (∀ (cur : Date) (b : BgRec),
        fade_out_alpha cur b = fade_out_of_months (months_old cur b)) := by
  refine ⟨rfl, by norm_num [fade_out_of_months, MIN_FADE], fun m hm => ?_,
    fun m1 m2 h => ?_, fun m => ⟨?_, ?_⟩, fun cur b => rfl⟩
  · unfold fade_out_of_months
    rw [max_eq_right (by unfold MIN_FADE; linarith),
      min_eq_left (by norm_num [MIN_FADE])]
  · exact min_le_min (max_le_max (by linarith) le_rfl) le_rfl
  · exact le_min (le_max_right _ _) (by norm_num [MIN_FADE])
  · exact min_le_right _ _

/-- Witness for C9 at exactly six elapsed months. -/
theorem fade_out_clip_w :
    (6 : ℚ) ≤ 6 ∧ fade_out_of_months 6 = MIN_FADE :=
  ⟨le_refl 6, fade_out_clip.2.2.1 6 (le_refl 6)⟩

/-! ## C8: final background opacity and visibility -/

/-- C8: every rendered background alpha equals
`fade_in_alpha * fade_out_alpha * 0.5`, and a record whose image month is
strictly after the current frame's month is excluded from the visible set. -/
theorem bg_final_alpha :
    ∀ (bgs : List BgRec) (cur : Date),
      (bgUpdate DECAY_YEARS MIN_OPACITY bgs cur).finalAlphas
          = (mask_visible bgs cur).map
              (fun b => fade_in_alpha cur b * fade_out_alpha cur b * (1 / 2))
      ∧ ∀ b ∈ bgs, monthIdx cur < monthIdx b.imageDate →
          b ∉ mask_visible bgs cur := by
  intro bgs cur
  refine ⟨rfl, fun b _ hlt hmem => ?_⟩
  have hle := (List.mem_filter.mp hmem).2
  simp only [decide_eq_true_eq] at hle
  omega

/-- Witness for C8: a 2020-01 record is not visible at a 2019-01 frame. -/
theorem bg_final_alpha_w :
    exBgLater ∈ [exBgLater]
    ∧ monthIdx (Date.mk 2019 1 1) < monthIdx exBgLater.imageDate
    ∧ exBgLater ∉ mask_visible [exBgLater] ⟨2019, 1, 1⟩ :=
  ⟨by decide, by decide,
    (bg_final_alpha [exBgLater] ⟨2019, 1, 1⟩).2 exBgLater (by decide) (by decide)⟩

/-! ## C10: decay parameters do not reach the rendered background alphas -/

/-- C10: the vectorized age-decay alphas computed inside the background
branch are never multiplied into `final_alphas`, so two runs differing only
in `DECAY_YEARS` and `MIN_OPACITY` render identical background offsets,
color values and opacities on every frame. -/
theorem bg_decay_params_unused :
    ∀ (d1 m1 d2 m2 : ℝ) (bgs : List BgRec) (cur : Date),
      (bgUpdate d1 m1 bgs cur).finalAlphas = (bgUpdate d2 m2 bgs cur).finalAlphas
      ∧ (bgUpdate d1 m1 bgs cur).offsets = (bgUpdate d2 m2 bgs cur).offsets
      ∧ (bgUpdate d1 m1 bgs cur).colorYears = (bgUpdate d2 m2 bgs cur).colorYears :=
  fun _ _ _ _ _ _ => ⟨rfl, rfl, rfl⟩

/-! ## C7: age-decay opacity -/

/-- C7: the foreground opacity is `max(exp(-a / (D*365)), MIN_OPACITY)` with
`MIN_OPACITY = 0.2`; it is monotonically non-increasing in the age and never
falls below `MIN_OPACITY`. -/
theorem calculate_opacity_decay :
    MIN_OPACITY = 0.2
    ∧ (∀ D a : ℝ, calculate_opacity D a
        = max (Real.exp (-a / (D * 365))) MIN_OPACITY)
    ∧ (∀ D a1 a2 : ℝ, 0 < D → 0 ≤ a1 → a1 ≤ a2 →
        calculate_opacity D a2 ≤ calculate_opacity D a1)
    ∧ (∀ D a : ℝ, MIN_OPACITY ≤ calculate_opacity D a) := by
  refine ⟨rfl, fun D a => rfl, fun D a1 a2 hD _ h12 => ?_,
    fun D a => le_max_right _ _⟩
  unfold calculate_opacity
  have hden : (0 : ℝ) < D * 365 := by positivity
  exact max_le_max
    (Real.exp_le_exp.mpr ((div_le_div_iff_of_pos_right hden).mpr (neg_le_neg h12))) le_rfl

/-- Witness for C7 with `D = 1`, ages `0` and `1`. -/
theorem calculate_opacity_decay_w :
    (0 : ℝ) < 1 ∧ (0 : ℝ) ≤ 0 ∧ (0 : ℝ) ≤ 1
    ∧ calculate_opacity 1 1 ≤ calculate_opacity 1 0 :=
  ⟨zero_lt_one, le_refl 0, zero_le_one,
    calculate_opacity_decay.2.2.1 1 0 1 zero_lt_one (le_refl 0) zero_le_one⟩

/-! ## C6: timeline length -/

lemma foldl_min_le_foldl_max (xs : List ℤ) :
    ∀ a b : ℤ, a ≤ b → xs.foldl min a ≤ xs.foldl max b := by
  induction xs with
  | nil => intro a b h; simpa using h
  | cons y ys ih =>
      intro a b h
      exact ih _ _ (le_trans (min_le_left a y) (le_trans h (le_max_left b y)))

lemma listMin_le_listMax {l : List ℤ} (h : l ≠ []) : listMin l ≤ listMax l := by
  cases l with
  | nil => exact absurd rfl h
  | cons x xs => exact foldl_min_le_foldl_max xs x x le_rfl

lemma combinedStart_le_combinedEnd (fg bg : List ℤ) (h : fg ≠ []) :
    combinedStart fg bg ≤ combinedEnd fg bg := by
  unfold combinedStart combinedEnd
  by_cases hbg : bg.isEmpty
  · rw [if_pos hbg, if_pos hbg]
    exact listMin_le_listMax h
  · rw [if_neg hbg, if_neg hbg]
    exact le_trans (min_le_left _ _)
      (le_trans (listMin_le_listMax h) (le_max_left _ _))

lemma length_consRange (s : ℤ) (n : Nat) : (consRange s n).length = n := by
  unfold consRange
  rw [List.length_map, List.length_range]

lemma consRange_getD (s : ℤ) (n i : Nat) (h : i < n) :
    (consRange s n).getD i 0 = s + i := by
  unfold consRange
  rw [List.getD_eq_getElem?_getD, List.getElem?_map, List.getElem?_range h]
  rfl

/-- C6: for a non-empty foreground dataset (with or without background data)
the timeline has `(max_date - min_date).days + 1` frames over the combined
date span, the frame dates are consecutive daily dates starting at the
minimum, and a degenerate single-day range yields exactly one frame. -/
theorem timeline_frame_count :
    ∀ (fg bg : List ℤ), fg ≠ [] →
      (timeline fg bg).length
          = (combinedEnd fg bg - combinedStart fg bg).toNat + 1
      ∧ (∀ i, i < (timeline fg bg).length →
          (timeline fg bg).getD i 0 = combinedStart fg bg + i)
      ∧ (combinedStart fg bg = combinedEnd fg bg → (timeline fg bg).length = 1) := by
  intro fg bg h
  have hse := combinedStart_le_combinedEnd fg bg h
  have htl : timeline fg bg
      = consRange (combinedStart fg bg)
          ((combinedEnd fg bg - combinedStart fg bg).toNat + 1) := by
    simp [timeline, date_range, if_pos hse]
  refine ⟨?_, ?_, ?_⟩
  · rw [htl, length_consRange]
  · intro i hi
    rw [htl] at hi ⊢
    rw [length_consRange] at hi
    exact consRange_getD _ _ _ hi
  · intro he
    rw [htl, length_consRange, he]
    simp

/-- Witness for C6 on the concrete date set {10, 12} with no background. -/
theorem timeline_frame_count_w :
    ([(10 : ℤ), 12] : List ℤ) ≠ []
    ∧ (timeline [(10 : ℤ), 12] []).length
        = (combinedEnd [(10 : ℤ), 12] [] - combinedStart [(10 : ℤ), 12] []).toNat + 1
    ∧ (timeline [(10 : ℤ), 12] []).length = 3 :=
  ⟨by decide, (timeline_frame_count [(10 : ℤ), 12] [] (by decide)).1, by decide⟩

/-! ## C2: monotone growth and terminal count -/

lemma runUpTo_length_mono (recs : List PtRec) (dr : List ℤ) (k : Nat) :
    (runUpTo recs dr k).length ≤ (runUpTo recs dr (k + 1)).length := by
  rw [runUpTo_succ]
  cases k with
  | zero => exact Nat.zero_le _
  | succ j =>
      rw [update_pos recs dr _ (j + 1) (Nat.succ_ne_zero j), List.length_append]
      exact Nat.le_add_right _ _

lemma countP_between_split (l : List PtRec) (x : ℤ) :
    l.countP (fun r => decide (r.ts ≤ x + 1)) + l.countP (fun r => decide (r.ts < x + 1))
      = l.countP (fun r => decide (r.ts ≤ x)) + l.countP (fun r => decide (r.ts < x))
        + l.countP (fun r => decide (x ≤ r.ts) && decide (r.ts ≤ x + 1)) := by
  induction l with
  | nil => simp
  | cons a l ih =>
      simp only [List.countP_cons, decide_eq_true_eq, Bool.and_eq_true]
      split_ifs <;> omega

lemma runUpTo_length_closed (recs : List PtRec) (dr : List ℤ) (d0 : ℤ)
    (hlo : ∀ r ∈ recs, d0 ≤ r.ts)
    (hdr : ∀ i, i < dr.length → dr.getD i 0 = d0 + (i : ℤ)) :
    ∀ k, 1 ≤ k → k ≤ dr.length →
      (runUpTo recs dr k).length
        = recs.countP (fun r => decide (r.ts ≤ dr.getD (k - 1) 0))
          + recs.countP (fun r => decide (r.ts < dr.getD (k - 1) 0)) := by
  intro k
  induction k with
  | zero => intro h _; exact absurd h (by omega)
  | succ j ih =>
      intro _ hlen
      cases Nat.eq_zero_or_pos j with
      | inl hj0 =>
          subst hj0
          have hrun : runUpTo recs dr 1 = locLe recs (dr.getD 0 0) := by
            rw [runUpTo_succ]
            exact update_zero_of_empty recs dr
          have hz : recs.countP (fun r => decide (r.ts < dr.getD 0 0)) = 0 := by
            apply List.countP_eq_zero.mpr
            intro r hr
            have h1 := hlo r hr
            have h2 := hdr 0 hlen
            simp only [decide_eq_true_eq]
            omega
          rw [hrun]
          simp only [Nat.sub_self]
          rw [hz]
          unfold locLe
          rw [← List.countP_eq_length_filter, Nat.add_zero]
      | inr hjpos =>
          have hjlen : j ≤ dr.length := le_trans (Nat.le_succ j) hlen
          have ihj := ih hjpos hjlen
          rw [runUpTo_succ,
            update_pos recs dr _ j (Nat.pos_iff_ne_zero.mp hjpos),
            List.length_append, ihj]
          have hgj : dr.getD j 0 = dr.getD (j - 1) 0 + 1 := by
            have e1 := hdr j (by omega)
            have e2 := hdr (j - 1) (by omega)
            omega
          have hlb : (locBetween recs (dr.getD (j - 1) 0) (dr.getD j 0)).length
              = recs.countP (fun r =>
                  decide (dr.getD (j - 1) 0 ≤ r.ts)
                    && decide (r.ts ≤ dr.getD (j - 1) 0 + 1)) := by
            rw [hgj]
            unfold locBetween
            rw [← List.countP_eq_length_filter]
          rw [hlb]
          simp only [Nat.add_sub_cancel]
          rw [hgj]
          have hsplit := countP_between_split recs (dr.getD (j - 1) 0)
          omega

/-- C2 counterexample: on the two-record example dataset the terminal
accumulated size is 3, not the input record count 2 — the boundary record is
appended twice by the inclusive window slicing. -/
theorem accumulator_terminal_cex :
    (runUpTo exRecs exDr 3).length = 3 ∧ exRecs.length = 2
    ∧ (3 : ℕ) ≠ 2 := by decide

/-- C2 (amended): the accumulated size is non-decreasing from each frame to
the next; for a consecutive daily timeline `d0, d0+1, ..., d0+N-1` covering
every record's timestamp, the terminal size equals the input record count
PLUS the number of records whose timestamp is strictly before the last frame
date (those are appended twice); on the example dataset the terminal size is
3 for 2 input records. -/
theorem accumulator_monotone_terminal :
    (∀ (recs : List PtRec) (dr : List ℤ) (k : Nat),
        (runUpTo recs dr k).length ≤ (runUpTo recs dr (k + 1)).length)
    ∧ (∀ (recs : List PtRec) (d0 : ℤ) (N : Nat), 1 ≤ N →
        (∀ r ∈ recs, d0 ≤ r.ts ∧ r.ts ≤ d0 + (N : ℤ) - 1) →
        (runUpTo recs (consRange d0 N) N).length
          = recs.length
            + recs.countP (fun r => decide (r.ts < d0 + (N : ℤ) - 1)))
    ∧ (runUpTo exRecs exDr 3).length = 3 ∧ exRecs.length = 2 := by
  refine ⟨runUpTo_length_mono, fun recs d0 N hN hbound => ?_, by decide, by decide⟩
  have hlo : ∀ r ∈ recs, d0 ≤ r.ts := fun r hr => (hbound r hr).1
  have hdr : ∀ i, i < (consRange d0 N).length →
      (consRange d0 N).getD i 0 = d0 + (i : ℤ) := by
    intro i hi
    rw [length_consRange] at hi
    exact consRange_getD d0 N i hi
  have hlen : N ≤ (consRange d0 N).length := by rw [length_consRange]
  have hmain := runUpTo_length_closed recs (consRange d0 N) d0 hlo hdr N hN hlen
  have hN1 : (consRange d0 N).getD (N - 1) 0 = d0 + (N : ℤ) - 1 := by
    have hg := consRange_getD d0 N (N - 1) (by omega)
    omega
  rw [hmain, hN1]
  have hall : recs.countP (fun r => decide (r.ts ≤ d0 + (N : ℤ) - 1))
      = recs.length := by
    apply List.countP_eq_length.mpr
    intro r hr
    simp only [decide_eq_true_eq]
    exact (hbound r hr).2
  rw [hall]

/-- Witness for the amended C2 on the example dataset (`N = 3`). -/
theorem accumulator_monotone_terminal_w :
    1 ≤ 3
    ∧ (runUpTo exRecs (consRange exRec1.ts 3) 3).length
        = exRecs.length
          + exRecs.countP (fun r => decide (r.ts < exRec1.ts + (3 : ℤ) - 1)) :=
  ⟨by decide,
    accumulator_monotone_terminal.2.1 exRecs exRec1.ts 3 (by decide) (by decide)⟩

end GpdPlot
